import Mathlib

/-!
Shallow embedding of the DP564 remote-control sketch (ESP32 Arduino sketch):
protocol constants, volume conversion, MAC classifier, discovery sweep,
inbound frame classification, the serial command dispatcher, and the main
polling loop.  Machine bytes are modelled as `Nat` values below 256, the
controller's `float` volume arithmetic as `ℚ` (exact at every value the
theorems quantify over), and `millis()` subtraction as 32-bit wraparound
subtraction on `Nat`.
-/

/-- Pre-command frame `00 00 00 0a` (`PRE_CMD` in the sketch). -/
def preCmd : List ℕ := [0x00, 0x00, 0x00, 0x0a]

/-- Volume command header `02 03 12 00 00` (`VOLUME_CMD_PREFIX`). -/
def volumeCmdHdr : List ℕ := [0x02, 0x03, 0x12, 0x00, 0x00]

/-- Dim command header `02 05 13 00 00` (`DIM_CMD_PREFIX`). -/
def dimCmdHdr : List ℕ := [0x02, 0x05, 0x13, 0x00, 0x00]

/-- Source command header `02 03 01 00 00` (`SOURCE_CMD_PREFIX`). -/
def sourceCmdHdr : List ℕ := [0x02, 0x03, 0x01, 0x00, 0x00]

/-- Unsolicited knob-turn volume update header (`VOLUME_DEVICE_UPDATE_PREFIX`). -/
def volumeUpdateAckHdr : List ℕ := [0x00, 0x00, 0x00, 0x0b, 0x04, 0x03, 0x14, 0x01, 0x02, 0x00]

/-- Volume acknowledgement header (`VOLUME_ACK_PREFIX`). -/
def volumeAckHdr : List ℕ := [0x00, 0x00, 0x00, 0x0b, 0x04, 0x03, 0x12, 0x01, 0x02, 0x00]

/-- Dim acknowledgement header (`DIM_ACK_PREFIX`). -/
def dimAckHdr : List ℕ := [0x00, 0x00, 0x00, 0x0b, 0x04, 0x05, 0x13, 0x01, 0x02, 0x00]

/-- Source acknowledgement header (`SOURCE_ACK_PREFIX`). -/
def sourceAckHdr : List ℕ := [0x00, 0x00, 0x00, 0x0b, 0x04, 0x03, 0x01, 0x01, 0x02, 0x00]

/-- Heartbeat frame `00 00 00 05 04` (`HEARTBEAT_PACKET`). -/
def heartbeatPacket : List ℕ := [0x00, 0x00, 0x00, 0x05, 0x04]

/-- Truncation toward zero, the semantics of the C cast `(int)` applied to the
sketch's `db * 2` float expression (exact on the rationals at stake). -/
def truncQ (q : ℚ) : ℤ := if 0 ≤ q then ⌊q⌋ else ⌈q⌉

/-- Byte-to-dB conversion `(byte - 192) / 2.0` used on volume acknowledgements
in `processIncomingPackets`. -/
def decodeVol (b : ℕ) : ℚ := ((b : ℚ) - 192) / 2

/-- Result of one command handler invocation: the bytes written to the
transport, and whether an error was reported to the operator. -/
structure CmdResult where
  sent : List ℕ
  error : Bool
deriving DecidableEq

/-- `setVolume` from the sketch: range-check `db`, else transmit
`PRE_CMD`, the volume header, and the payload byte `(byte)(192 + (int)(db*2))`. -/
def setVolume (db : ℚ) : CmdResult :=
  if 0 < db ∨ db < -95 then ⟨[], true⟩
  else
    let val : ℤ := 192 + truncQ (db * 2)
    ⟨preCmd ++ volumeCmdHdr ++ [(val % 256).toNat], false⟩

/-- `setDim` from the sketch: always transmits, payload `01`/`00`. -/
def setDim (state : Bool) : CmdResult :=
  ⟨preCmd ++ dimCmdHdr ++ [if state then 1 else 0], false⟩

/-- `setSource` from the sketch: lowercase the argument, map the four source
names to payload bytes, reject anything else with no transmission. -/
def setSource (src : List Char) : CmdResult :=
  let s := src.map Char.toLower
  if s = ['a', 'e', 's', '1'] then ⟨preCmd ++ sourceCmdHdr ++ [0x00], false⟩
  else if s = ['a', 'e', 's', '2'] then ⟨preCmd ++ sourceCmdHdr ++ [0x01], false⟩
  else if s = ['o', 'p', 't', 'i', 'c', 'a', 'l'] then ⟨preCmd ++ sourceCmdHdr ++ [0x02], false⟩
  else if s = ['s', 't', 'r', 'e', 'a', 'm', 'i', 'n', 'g'] then ⟨preCmd ++ sourceCmdHdr ++ [0x03], false⟩
  else ⟨[], true⟩

/-- `isDolbyMac` from the sketch: the early-return chain of vendor rules over a
6-octet hardware address (`mac[i]` for `i = 0..5`). -/
def isDolbyMac (mac : Fin 6 → ℕ) : Bool :=
  if mac 0 = 0x00 ∧ mac 1 = 0x12 ∧ mac 2 = 0xA6 then true
  else if mac 0 = 0x00 ∧ mac 1 = 0xD0 ∧ mac 2 = 0x46 then true
  else if mac 0 = 0x70 ∧ mac 1 = 0xB3 ∧ mac 2 = 0xD5 ∧ mac 3 = 0x3F ∧
      Nat.land (mac 4) 0xF0 = 0x50 then true
  else if mac 0 = 0x70 ∧ mac 1 = 0xB3 ∧ mac 2 = 0xD5 ∧ mac 3 = 0x73 ∧
      Nat.land (mac 4) 0xF0 = 0xA0 then true
  else if mac 0 = 0xD4 ∧ mac 1 = 0x25 ∧ mac 2 = 0xCC ∧ Nat.land (mac 3) 0xF0 = 0x80 then true
  else false

/-- The configured vendor rules as the specification words them: two exact
3-octet prefixes, two 4-octet prefixes with the upper nibble of the 5th octet,
and one 3-octet prefix with the upper nibble of the 4th octet (the upper nibble
of a byte `b < 256` being `b / 16`). -/
def vendorRuleMatch (mac : Fin 6 → ℕ) : Prop :=
  (mac 0 = 0x00 ∧ mac 1 = 0x12 ∧ mac 2 = 0xA6) ∨
  (mac 0 = 0x00 ∧ mac 1 = 0xD0 ∧ mac 2 = 0x46) ∨
  (mac 0 = 0x70 ∧ mac 1 = 0xB3 ∧ mac 2 = 0xD5 ∧ mac 3 = 0x3F ∧ mac 4 / 16 = 0x5) ∨
  (mac 0 = 0x70 ∧ mac 1 = 0xB3 ∧ mac 2 = 0xD5 ∧ mac 3 = 0x73 ∧ mac 4 / 16 = 0xA) ∨
  (mac 0 = 0xD4 ∧ mac 1 = 0x25 ∧ mac 2 = 0xCC ∧ mac 3 / 16 = 0x8)

instance (mac : Fin 6 → ℕ) : Decidable (vendorRuleMatch mac) := by
  unfold vendorRuleMatch; infer_instance

/-- Outcome of probing one candidate last-octet `i` in `scanForDolbyDevice`:
the probe connection is accepted and the ARP lookup yields a hardware address
that the classifier accepts. -/
def okProbe (connects : ℕ → Bool) (arp : ℕ → Option (Fin 6 → ℕ)) (i : ℕ) : Bool :=
  connects i &&
    (match arp i with
     | some mac => isDolbyMac mac
     | none => false)

/-- The body of the `for (int i = 1; i < 255; i++)` sweep in
`scanForDolbyDevice`, recursing over the remaining candidate last-octets:
skip the local address, skip candidates whose probe connection fails or whose
ARP lookup misses or mismatches, and stop at the first classifier match. -/
def scanFrom (localOctet : ℕ) (connects : ℕ → Bool) (arp : ℕ → Option (Fin 6 → ℕ)) :
    List ℕ → Option ℕ
  | [] => none
  | i :: rest =>
    if i = localOctet then scanFrom localOctet connects arp rest
    else if connects i then
      match arp i with
      | some mac =>
        if isDolbyMac mac then some i else scanFrom localOctet connects arp rest
      | none => scanFrom localOctet connects arp rest
    else scanFrom localOctet connects arp rest

/-- The candidate last-octets probed by the sweep, in loop order: 1 up to 254. -/
def sweepCandidates : List ℕ := List.range' 1 254

/-- `scanForDolbyDevice` from the sketch, abstracted over the transport probe
(`connects`) and the ARP table (`arp`); returns the last octet of the first
confirmed device, or `none` when the sweep exhausts the subnet. -/
def scanForDolbyDevice (localOctet : ℕ) (connects : ℕ → Bool)
    (arp : ℕ → Option (Fin 6 → ℕ)) : Option ℕ :=
  scanFrom localOctet connects arp sweepCandidates

/-- Last-known appliance state: `currentVolume`, `isDimmed`, `currentSource`
globals of the sketch. -/
structure DeviceState where
  currentVolume : ℚ
  isDimmed : Bool
  currentSource : String
deriving DecidableEq

/-- Classification outcome of one inbound read, matching the if-chain of
`processIncomingPackets`. -/
inductive FrameKind where
  | heartbeat
  | volumeUpdate
  | volumeAck
  | dimAck
  | sourceAck
  | unrecognized
deriving DecidableEq

/-- The if-chain of `processIncomingPackets` applied to the receive buffer
contents `buf` and the read length `len`: the heartbeat `memcmp` compares the
first five buffer bytes unconditionally, each acknowledgement match requires
`len` strictly greater than its 10-byte header. -/
def classifyFrame (buf : List ℕ) (len : ℕ) : FrameKind :=
  if buf.take 5 = heartbeatPacket then .heartbeat
  else if 10 < len ∧ buf.take 10 = volumeUpdateAckHdr then .volumeUpdate
  else if 10 < len ∧ buf.take 10 = volumeAckHdr then .volumeAck
  else if 10 < len ∧ buf.take 10 = dimAckHdr then .dimAck
  else if 10 < len ∧ buf.take 10 = sourceAckHdr then .sourceAck
  else .unrecognized

/-- The four independent `if (val == ..)` assignments of the source-ACK branch:
payload bytes 0–3 select a source name, anything else leaves it unchanged. -/
def sourceNameOf (v : ℕ) (old : String) : String :=
  if v = 0 then "aes1"
  else if v = 1 then "aes2"
  else if v = 2 then "optical"
  else if v = 3 then "streaming"
  else old

/-- Effect of one classified read on `DeviceState`: acknowledgement and update
frames set their field from the trailing byte `rxBuffer[len - 1]`; heartbeat
and unrecognized reads change nothing. -/
def applyFrame (k : FrameKind) (buf : List ℕ) (len : ℕ) (dev : DeviceState) : DeviceState :=
  match k with
  | .volumeUpdate => { dev with currentVolume := decodeVol (buf.getD (len - 1) 0) }
  | .volumeAck => { dev with currentVolume := decodeVol (buf.getD (len - 1) 0) }
  | .dimAck => { dev with isDimmed := buf.getD (len - 1) 0 == 1 }
  | .sourceAck => { dev with currentSource := sourceNameOf (buf.getD (len - 1) 0) dev.currentSource }
  | _ => dev

/-- `processIncomingPackets` from the sketch over a queue of pending reads:
each read overwrites a prefix of the persistent `rxBuffer` (`buf`), an empty
read or a heartbeat match returns at once (leaving later reads pending),
any other read is classified, applied to the device state, and the while loop
continues.  Returns the final device state, the final buffer, and the reads
left unconsumed by an early return. -/
def procReads : List (List ℕ) → List ℕ → DeviceState → DeviceState × List ℕ × List (List ℕ)
  | [], buf, dev => (dev, buf, [])
  | r :: rest, buf, dev =>
    if r.length = 0 then (dev, buf, rest)
    else
      let newBuf := r ++ buf.drop r.length
      match classifyFrame newBuf r.length with
      | .heartbeat => (dev, newBuf, rest)
      | k => procReads rest newBuf (applyFrame k newBuf r.length dev)

/-- Whitespace recognizer of the C `isspace` family used by `atof` and by
Arduino `String::trim`. -/
def isSpaceB (c : Char) : Bool :=
  c == ' ' || c == '\t' || c == '\n' || c == '\r' || c == '\x0b' || c == '\x0c'

/-- Drop one leading sign character, if present. -/
def stripSign : List Char → List Char
  | '-' :: r => r
  | '+' :: r => r
  | l => l

/-- Sign factor of a leading sign character. -/
def signOf : List Char → ℚ
  | '-' :: _ => -1
  | _ => 1

/-- Leading integer digits and, after an optional decimal point, fraction
digits of a character sequence. -/
def numBody (l : List Char) : List Char × List Char :=
  let ds := l.takeWhile Char.isDigit
  match l.dropWhile Char.isDigit with
  | '.' :: r => (ds, r.takeWhile Char.isDigit)
  | _ => (ds, [])

/-- Value of a digit string. -/
def digitsToNat (ds : List Char) : ℕ :=
  ds.foldl (fun a c => 10 * a + (c.toNat - 48)) 0

/-- Modelled from the spec: Arduino `String::toFloat` (C `atof`), called by the
command dispatcher but not present in the repository sources — skip leading
whitespace, an optional sign, then read integer and fraction digits; an
argument with no digits at all yields `0.0`. -/
def atofQ (l : List Char) : ℚ :=
  let l1 := l.dropWhile isSpaceB
  let p := numBody (stripSign l1)
  signOf l1 * ((digitsToNat p.1 : ℚ) + (digitsToNat p.2 : ℚ) / 10 ^ p.2.length)

/-- Modelled from the spec: whether `atof` finds a number, i.e. at least one
integer or fraction digit after optional whitespace and sign. -/
def parsesAsNumber (l : List Char) : Bool :=
  let p := numBody (stripSign (l.dropWhile isSpaceB))
  !(p.1.isEmpty && p.2.isEmpty)

/-- Arduino `String::trim`: strip leading and trailing whitespace. -/
def trimL (l : List Char) : List Char :=
  ((l.dropWhile isSpaceB).reverse.dropWhile isSpaceB).reverse

/-- `handleUserCommand` from the sketch: split the line at the first space into
command and argument, lowercase the command, and dispatch.  `status` and
unknown commands print only (no transmission, no error). -/
def handleUserCommand (l : List Char) : CmdResult :=
  let cmd0 := l.takeWhile (fun c => c != ' ')
  let arg := if l.contains ' ' then (l.dropWhile (fun c => c != ' ')).tail else []
  let cmd := cmd0.map Char.toLower
  if cmd = ['v', 'o', 'l', 'u', 'm', 'e'] then setVolume (atofQ arg)
  else if cmd = ['d', 'i', 'm'] then setDim (arg = ['o', 'n'])
  else if cmd = ['s', 'o', 'u', 'r', 'c', 'e'] then setSource arg
  else if cmd = ['s', 't', 'a', 't', 'u', 's'] then ⟨[], false⟩
  else ⟨[], false⟩

/-- Session-engine state carried across ticks of `loop`: the `deviceFound`,
`isConnected`, `lastHeartbeatTime` globals, the device state, and the
persistent `rxBuffer`. -/
structure EngineState where
  deviceFound : Bool
  isConnected : Bool
  lastHeartbeatTime : ℕ
  dev : DeviceState
  rxBuf : List ℕ
deriving DecidableEq

/-- Observable outcome of one `loop` tick: the successor state, every byte
written to the transport this tick, whether the tick invoked the transport
connect operation (`client.connect`; `loop` never does — `connectToDevice`
is called only from `setup`), and the inbound reads left unconsumed. -/
structure LoopOut where
  state : EngineState
  writes : List ℕ
  connectAttempt : Bool
  leftoverReads : List (List ℕ)
deriving DecidableEq

/-- 32-bit wraparound subtraction, the semantics of
`millis() - lastHeartbeatTime` on `unsigned long`. -/
def usub32 (a b : ℕ) : ℕ := (a + 2 ^ 32 - b % 2 ^ 32) % 2 ^ 32

/-- `sendHeartbeat` from the sketch: write the heartbeat frame when the client
is still connected, else nothing. -/
def sendHeartbeat (clientConnected : Bool) : List ℕ :=
  if clientConnected then heartbeatPacket else []

/-- One tick of `loop`: bail out if no device was discovered; detect a lost
connection and fall back to disconnected; in the disconnected state do nothing
(the sketch comments this branch `Wait for manual reset or logic expansion`);
otherwise emit a heartbeat when more than `HEARTBEAT_INTERVAL` (10000 ms) has
elapsed, drain inbound reads through `processIncomingPackets`, and dispatch at
most one trimmed nonempty serial line. -/
def loopTick (now : ℕ) (clientConnected : Bool) (reads : List (List ℕ))
    (serial : Option (List Char)) (st : EngineState) : LoopOut :=
  if !st.deviceFound then ⟨st, [], false, reads⟩
  else
    let st1 := if !clientConnected && st.isConnected then { st with isConnected := false } else st
    if !st1.isConnected then ⟨st1, [], false, reads⟩
    else
      let doHb := 10000 < usub32 now st1.lastHeartbeatTime
      let hbW := if doHb then sendHeartbeat clientConnected else []
      let st2 := if doHb then { st1 with lastHeartbeatTime := now } else st1
      let p := procReads reads st2.rxBuf st2.dev
      let st3 := { st2 with dev := p.1, rxBuf := p.2.1 }
      let cmdW :=
        match serial with
        | none => []
        | some line =>
          let t := trimL line
          if t.length = 0 then [] else (handleUserCommand t).sent
      ⟨st3, hbW ++ cmdW, false, p.2.2⟩

theorem truncQ_intCast (n : ℤ) : truncQ (n : ℚ) = n := by
  unfold truncQ
  split
  · exact Int.floor_intCast n
  · exact Int.ceil_intCast n

theorem setVolume_half (k : ℕ) (hk : k ≤ 190) :
    setVolume (-(k : ℚ) / 2) = ⟨preCmd ++ volumeCmdHdr ++ [192 - k], false⟩ := by
  have hkq : (k : ℚ) ≤ 190 := by exact_mod_cast hk
  have hkz : (k : ℤ) ≤ 190 := by exact_mod_cast hk
  have hk0 : (0 : ℚ) ≤ (k : ℚ) := Nat.cast_nonneg k
  have hrange : ¬(0 < -(k : ℚ) / 2 ∨ -(k : ℚ) / 2 < -95) := by
    push_neg
    constructor
    · linarith
    · linarith
  have htr : truncQ (-(k : ℚ) / 2 * 2) = -(k : ℤ) := by
    rw [show -(k : ℚ) / 2 * 2 = ((-(k : ℤ) : ℤ) : ℚ) by push_cast; ring]
    exact truncQ_intCast _
  have hmod : ((192 : ℤ) + -(k : ℤ)) % 256 = 192 - (k : ℤ) := by omega
  have htn : ((192 : ℤ) - (k : ℤ)).toNat = 192 - k := by omega
  unfold setVolume
  rw [if_neg hrange]
  simp only [htr, hmod, htn]

/-- Claim C1: for every half-dB value `v = -(k/2)` with `0 ≤ k ≤ 190` (that is,
every multiple of 0.5 in [-95.0, 0.0]), `setVolume` transmits the volume
command with some payload byte `b`, and decoding `b` the way a volume
acknowledgement is decoded (`(b - 192) / 2.0`) returns `v` exactly. -/
theorem volume_roundtrip (k : ℕ) (hk : k ≤ 190) :
    ∃ b : ℕ, (setVolume (-(k : ℚ) / 2)).sent = preCmd ++ volumeCmdHdr ++ [b] ∧
      decodeVol b = -(k : ℚ) / 2 := by
  refine ⟨192 - k, ?_, ?_⟩
  · rw [setVolume_half k hk]
  · unfold decodeVol
    rw [Nat.cast_sub (by omega : k ≤ 192)]
    push_cast
    ring

theorem volume_roundtrip_witness :
    ∃ b : ℕ, (setVolume (-((20 : ℕ) : ℚ) / 2)).sent = preCmd ++ volumeCmdHdr ++ [b] ∧
      decodeVol b = -((20 : ℕ) : ℚ) / 2 :=
  volume_roundtrip 20 (by norm_num)

/-- Claim C4: `setVolume` rejects every dB value outside [-95.0, 0.0] — it
reports an error to the operator and writes zero bytes to the transport (and,
touching no device state by construction, leaves it unchanged). -/
theorem setVolume_out_of_range (db : ℚ) (h : 0 < db ∨ db < -95) :
    setVolume db = ⟨[], true⟩ := by
  unfold setVolume
  rw [if_pos h]

theorem setVolume_out_of_range_witness : setVolume 5 = ⟨[], true⟩ :=
  setVolume_out_of_range 5 (Or.inl (by norm_num))

/-- Claim C8 counterexample: at the accepted in-range volume `-0.3` dB the
sketch transmits payload byte 192 (truncation toward zero of `db * 2`), while
`round(192 + db * 2) = 191`; so the transmitted payload is not the claimed
rounding for arbitrary in-range values. -/
theorem volume_payload_round_counterexample :
    (setVolume (-3 / 10 : ℚ)).sent = preCmd ++ volumeCmdHdr ++ [192] ∧
      (round ((192 : ℚ) + (-3 / 10 : ℚ) * 2)).toNat ≠ 192 := by
  have htr : truncQ ((-3 / 10 : ℚ) * 2) = 0 := by
    unfold truncQ
    rw [if_neg (by norm_num : ¬((0 : ℚ) ≤ -3 / 10 * 2))]
    rw [show ((-3 : ℚ) / 10 * 2) = -3 / 5 by norm_num]
    rw [Int.ceil_eq_iff]
    norm_num
  have hrd : round ((192 : ℚ) + (-3 / 10 : ℚ) * 2) = 191 := by
    rw [round_eq]
    rw [show (192 : ℚ) + (-3 / 10 : ℚ) * 2 + 1 / 2 = 1919 / 10 by norm_num]
    rw [Int.floor_eq_iff]
    norm_num
  constructor
  · simp only [setVolume]
    rw [if_neg (by norm_num : ¬((0 : ℚ) < -3 / 10 ∨ (-3 / 10 : ℚ) < -95))]
    rw [htr]
    rfl
  · rw [hrd]
    decide

/-- Claim C8 (amended): for every half-dB multiple `-(k/2)` with `k ≤ 190`
accepted by the validation, the payload byte transmitted after the volume
command header equals `round(192 + dB * 2)`; on arbitrary (non-half-step)
in-range values the sketch truncates instead of rounding. -/
theorem volume_payload_half_db (k : ℕ) (hk : k ≤ 190) :
    (setVolume (-(k : ℚ) / 2)).sent =
      preCmd ++ volumeCmdHdr ++ [(round ((192 : ℚ) + -(k : ℚ) / 2 * 2)).toNat] := by
  rw [setVolume_half k hk]
  rw [show (192 : ℚ) + -(k : ℚ) / 2 * 2 = ((192 - (k : ℤ) : ℤ) : ℚ) by push_cast; ring]
  rw [round_intCast]
  rw [show ((192 : ℤ) - (k : ℤ)).toNat = 192 - k by omega]

set_option maxRecDepth 10000 in
theorem landNibbleHigh : ∀ b < 256, Nat.land b 240 = 16 * (b / 16) := by decide

/-- Claim C2: the vendor hardware-address classifier is a total boolean
predicate, and on byte-valued 6-octet addresses it returns `true` exactly on
the addresses matching one of the configured rules (the exact 3-octet prefixes
`00:12:A6` and `00:D0:46`, the 4-octet-plus-nibble prefixes `70:B3:D5:3F:5x`
and `70:B3:D5:73:Ax`, and the 3-octet-plus-nibble prefix `D4:25:CC:8x`), and
`false` on every address differing from all rules in an unmasked bit. -/
theorem isDolbyMac_iff (mac : Fin 6 → ℕ) (h : ∀ i, mac i < 256) :
    isDolbyMac mac = true ↔ vendorRuleMatch mac := by
  have h4 := landNibbleHigh (mac 4) (h 4)
  have h3 := landNibbleHigh (mac 3) (h 3)
  unfold vendorRuleMatch
  constructor
  · intro hb
    unfold isDolbyMac at hb
    split_ifs at hb with g1 g2 g3 g4 g5
    · exact Or.inl g1
    · exact Or.inr (Or.inl g2)
    · rw [h4] at g3
      exact Or.inr (Or.inr (Or.inl ⟨g3.1, g3.2.1, g3.2.2.1, g3.2.2.2.1, by omega⟩))
    · rw [h4] at g4
      exact Or.inr (Or.inr (Or.inr (Or.inl ⟨g4.1, g4.2.1, g4.2.2.1, g4.2.2.2.1, by omega⟩)))
    · rw [h3] at g5
      exact Or.inr (Or.inr (Or.inr (Or.inr ⟨g5.1, g5.2.1, g5.2.2.1, by omega⟩)))
  · intro hv
    cases hb : isDolbyMac mac with
    | true => rfl
    | false =>
      exfalso
      unfold isDolbyMac at hb
      split_ifs at hb with g1 g2 g3 g4 g5
      rw [h4] at g3 g4
      rw [h3] at g5
      rcases hv with hr | hr | hr | hr | hr
      · exact g1 hr
      · exact g2 hr
      · exact g3 ⟨hr.1, hr.2.1, hr.2.2.1, hr.2.2.2.1, by omega⟩
      · exact g4 ⟨hr.1, hr.2.1, hr.2.2.1, hr.2.2.2.1, by omega⟩
      · exact g5 ⟨hr.1, hr.2.1, hr.2.2.1, by omega⟩

theorem isDolbyMac_iff_witness :
    isDolbyMac (fun i => [0x70, 0xB3, 0xD5, 0x3F, 0x5A, 0x07].getD i.val 0) = true ↔
      vendorRuleMatch (fun i => [0x70, 0xB3, 0xD5, 0x3F, 0x5A, 0x07].getD i.val 0) :=
  isDolbyMac_iff _ (by decide)

theorem scanFrom_eq_find (localOctet : ℕ) (connects : ℕ → Bool)
    (arp : ℕ → Option (Fin 6 → ℕ)) (l : List ℕ) :
    scanFrom localOctet connects arp l =
      (l.filter fun i => i != localOctet).find? (okProbe connects arp) := by
  induction l with
  | nil => rfl
  | cons i rest ih =>
    by_cases hloc : i = localOctet
    · simp [scanFrom, hloc, ih]
    · have hne : (i != localOctet) = true := by simp [hloc]
      cases hc : connects i with
      | false => simp [scanFrom, hloc, hc, ih, List.filter_cons, hne, List.find?, okProbe]
      | true =>
        cases harp : arp i with
        | none => simp [scanFrom, hloc, hc, harp, ih, List.filter_cons, hne, List.find?, okProbe]
        | some mac =>
          cases hd : isDolbyMac mac with
          | false =>
            simp [scanFrom, hloc, hc, harp, hd, ih, List.filter_cons, hne, List.find?, okProbe]
          | true =>
            simp [scanFrom, hloc, hc, harp, hd, List.filter_cons, hne, List.find?, okProbe]

theorem find_sorted_earlier_false (p : ℕ → Bool) (l : List ℕ)
    (hs : List.Pairwise (· < ·) l) (j : ℕ) (hj : l.find? p = some j) :
    ∀ i ∈ l, i < j → p i = false := by
  induction l with
  | nil => simp at hj
  | cons a t ih =>
    rw [List.find?_cons] at hj
    rcases List.pairwise_cons.mp hs with ⟨ha, ht⟩
    intro i hi hij
    cases hpa : p a with
    | true =>
      rw [hpa] at hj
      have haj : a = j := by simpa using hj
      rcases List.mem_cons.mp hi with rfl | hit
      · omega
      · exact absurd (ha i hit) (by omega)
    | false =>
      rw [hpa] at hj
      rcases List.mem_cons.mp hi with rfl | hit
      · exact hpa
      · exact ih ht hj i hit hij

/-- Claim C3: the discovery sweep probes the candidate last octets 1..254 in
ascending order, skipping the local address; it equals the first-match search
over those candidates (per-candidate connect failures, ARP misses, and
classifier mismatches merely advance), a `some j` result is the numerically
first accepting-and-matching candidate, and exhausting all candidates with no
match yields `none` as the normal outcome. -/
theorem scan_first_match (localOctet : ℕ) (connects : ℕ → Bool)
    (arp : ℕ → Option (Fin 6 → ℕ)) :
    scanForDolbyDevice localOctet connects arp =
        ((sweepCandidates.filter fun i => i != localOctet).find? (okProbe connects arp)) ∧
      List.Pairwise (· < ·) sweepCandidates ∧
      (scanForDolbyDevice localOctet connects arp = none ↔
        ∀ i ∈ sweepCandidates, i ≠ localOctet → okProbe connects arp i = false) ∧
      (∀ j, scanForDolbyDevice localOctet connects arp = some j →
        j ∈ sweepCandidates ∧ j ≠ localOctet ∧ okProbe connects arp j = true ∧
          ∀ i ∈ sweepCandidates, i < j → i ≠ localOctet → okProbe connects arp i = false) := by
  have hfind := scanFrom_eq_find localOctet connects arp sweepCandidates
  have hsort : List.Pairwise (· < ·) sweepCandidates := List.pairwise_lt_range' 1 254
  have hsortf : List.Pairwise (· < ·) (sweepCandidates.filter fun i => i != localOctet) :=
    hsort.filter _
  refine ⟨hfind, hsort, ?_, ?_⟩
  · rw [scanForDolbyDevice, hfind, List.find?_eq_none]
    constructor
    · intro hnone i hi hne
      have : i ∈ sweepCandidates.filter fun i => i != localOctet := by
        simp [List.mem_filter, hi, hne]
      simpa using hnone i this
    · intro hall i hi
      rcases List.mem_filter.mp hi with ⟨hmem, hne⟩
      simp only [bne_iff_ne, ne_eq] at hne
      simp [hall i hmem hne]
  · intro j hj
    rw [scanForDolbyDevice, hfind] at hj
    have hjmem := List.mem_of_find?_eq_some hj
    rcases List.mem_filter.mp hjmem with ⟨hmem, hne⟩
    have hok := List.find?_some hj
    simp only [bne_iff_ne, ne_eq] at hne
    refine ⟨hmem, hne, hok, ?_⟩
    intro i hi hij hine
    have hif : i ∈ sweepCandidates.filter fun i => i != localOctet := by
      simp [List.mem_filter, hi, hine]
    exact find_sorted_earlier_false _ _ hsortf j hj i hif hij

theorem volume_payload_half_db_witness :
    (setVolume (-((1 : ℕ) : ℚ) / 2)).sent =
      preCmd ++ volumeCmdHdr ++ [(round ((192 : ℚ) + -((1 : ℕ) : ℚ) / 2 * 2)).toNat] :=
  volume_payload_half_db 1 (by norm_num)

theorem classify_short (len : ℕ) (h : len ≤ 10) (b : List ℕ) :
    classifyFrame b len = FrameKind.heartbeat ∨ classifyFrame b len = FrameKind.unrecognized := by
  unfold classifyFrame
  split_ifs with c1 c2 c3 c4 c5
  · exact Or.inl rfl
  · exact absurd c2.1 (by omega)
  · exact absurd c3.1 (by omega)
  · exact absurd c4.1 (by omega)
  · exact absurd c5.1 (by omega)
  · exact Or.inr rfl

theorem classify_heartbeat_iff (b : List ℕ) (len : ℕ) :
    classifyFrame b len = FrameKind.heartbeat ↔ b.take 5 = heartbeatPacket := by
  unfold classifyFrame
  split_ifs with c1 c2 c3 c4 c5 <;> simp [c1]

theorem classify_len_gt (b : List ℕ) (len : ℕ) (k : FrameKind)
    (hk : classifyFrame b len = k) (hne1 : k ≠ FrameKind.heartbeat)
    (hne2 : k ≠ FrameKind.unrecognized) : 10 < len := by
  by_contra hl
  rcases classify_short len (by omega) b with hh | hh
  · exact hne1 (hk ▸ hh ▸ rfl)
  · exact hne2 (hk ▸ hh ▸ rfl)

theorem classifyFrame_congr (b b' : List ℕ) (len : ℕ) (h5 : b.take 5 = b'.take 5)
    (h10 : 10 < len → b.take 10 = b'.take 10) :
    classifyFrame b len = classifyFrame b' len := by
  unfold classifyFrame
  by_cases hl : 10 < len
  · rw [h5, h10 hl]
  · simp [h5, hl]

theorem applyFrame_append (r t : List ℕ) (dev : DeviceState) (k : FrameKind)
    (hk : classifyFrame r r.length = k) :
    applyFrame k (r ++ t) r.length dev = applyFrame k r r.length dev := by
  have hget : 10 < r.length → (r ++ t).getD (r.length - 1) 0 = r.getD (r.length - 1) 0 :=
    fun hl => List.getD_append _ _ _ _ (by omega)
  cases k with
  | heartbeat => rfl
  | unrecognized => rfl
  | volumeUpdate =>
    have hl : 10 < r.length := classify_len_gt _ _ _ hk (by decide) (by decide)
    simp only [applyFrame]
    rw [hget hl]
  | volumeAck =>
    have hl : 10 < r.length := classify_len_gt _ _ _ hk (by decide) (by decide)
    simp only [applyFrame]
    rw [hget hl]
  | dimAck =>
    have hl : 10 < r.length := classify_len_gt _ _ _ hk (by decide) (by decide)
    simp only [applyFrame]
    rw [hget hl]
  | sourceAck =>
    have hl : 10 < r.length := classify_len_gt _ _ _ hk (by decide) (by decide)
    simp only [applyFrame]
    rw [hget hl]

theorem procReads_heartbeat_stop (r : List ℕ) (rest2 : List (List ℕ)) (buf2 : List ℕ)
    (dev2 : DeviceState) (hhb : r.take 5 = heartbeatPacket) :
    procReads (r :: rest2) buf2 dev2 = (dev2, r ++ buf2.drop r.length, rest2) := by
  have h5 : 5 ≤ r.length := by
    have := congrArg List.length hhb
    simp [List.length_take, heartbeatPacket] at this
    omega
  have h0 : ¬ r.length = 0 := by omega
  have hcl : classifyFrame (r ++ buf2.drop r.length) r.length = FrameKind.heartbeat := by
    rw [classify_heartbeat_iff]
    rw [List.take_append_of_le_length h5, hhb]
  simp only [procReads, if_neg h0, hcl]

theorem procReads_foldl (reads : List (List ℕ)) (buf : List ℕ) (dev : DeviceState)
    (h : ∀ r ∈ reads, 5 ≤ r.length ∧ r.take 5 ≠ heartbeatPacket) :
    (procReads reads buf dev).1 =
      reads.foldl (fun d r => applyFrame (classifyFrame r r.length) r r.length d) dev ∧
    (procReads reads buf dev).2.2 = [] := by
  induction reads generalizing buf dev with
  | nil => exact ⟨rfl, rfl⟩
  | cons r rest ih =>
    obtain ⟨h5, hhb⟩ := h r (List.mem_cons_self r rest)
    have hrest : ∀ x ∈ rest, 5 ≤ x.length ∧ x.take 5 ≠ heartbeatPacket :=
      fun x hx => h x (List.mem_cons_of_mem r hx)
    have h0 : ¬ r.length = 0 := by omega
    have hcong : classifyFrame (r ++ buf.drop r.length) r.length =
        classifyFrame r r.length :=
      classifyFrame_congr _ _ _ (List.take_append_of_le_length h5)
        (fun hl => List.take_append_of_le_length (by omega))
    have hnothb : classifyFrame (r ++ buf.drop r.length) r.length ≠ FrameKind.heartbeat :=
      fun hcontra => hhb (by
        rwa [classify_heartbeat_iff, List.take_append_of_le_length h5] at hcontra)
    simp only [procReads, if_neg h0, List.foldl_cons]
    cases hk : classifyFrame (r ++ buf.drop r.length) r.length with
    | heartbeat => exact absurd hk hnothb
    | volumeUpdate =>
      rw [applyFrame_append r _ dev _ (hcong ▸ hk)]
      rw [show classifyFrame r r.length = FrameKind.volumeUpdate from hcong ▸ hk]
      exact ih _ _ hrest
    | volumeAck =>
      rw [applyFrame_append r _ dev _ (hcong ▸ hk)]
      rw [show classifyFrame r r.length = FrameKind.volumeAck from hcong ▸ hk]
      exact ih _ _ hrest
    | dimAck =>
      rw [applyFrame_append r _ dev _ (hcong ▸ hk)]
      rw [show classifyFrame r r.length = FrameKind.dimAck from hcong ▸ hk]
      exact ih _ _ hrest
    | sourceAck =>
      rw [applyFrame_append r _ dev _ (hcong ▸ hk)]
      rw [show classifyFrame r r.length = FrameKind.sourceAck from hcong ▸ hk]
      exact ih _ _ hrest
    | unrecognized =>
      rw [applyFrame_append r _ dev _ (hcong ▸ hk)]
      rw [show classifyFrame r r.length = FrameKind.unrecognized from hcong ▸ hk]
      exact ih _ _ hrest

/-- Claim C6: an inbound read no longer than the 10-byte acknowledgement
headers is never classified as any of the four value-carrying frame kinds
(a match needs the read length strictly greater than the header so a trailing
value byte exists), leaves the device state unchanged, and is dropped whole —
the processing loop moves past it with nothing left pending. -/
theorem short_read_dropped (r buf : List ℕ) (dev : DeviceState) (h : r.length ≤ 10) :
    (classifyFrame (r ++ buf.drop r.length) r.length ≠ FrameKind.volumeUpdate ∧
     classifyFrame (r ++ buf.drop r.length) r.length ≠ FrameKind.volumeAck ∧
     classifyFrame (r ++ buf.drop r.length) r.length ≠ FrameKind.dimAck ∧
     classifyFrame (r ++ buf.drop r.length) r.length ≠ FrameKind.sourceAck) ∧
    (procReads [r] buf dev).1 = dev ∧ (procReads [r] buf dev).2.2 = [] := by
  have hcl := classify_short r.length h
  constructor
  · rcases hcl (r ++ buf.drop r.length) with hk | hk <;> rw [hk] <;>
      exact ⟨by decide, by decide, by decide, by decide⟩
  · by_cases h0 : r.length = 0
    · simp only [procReads, if_pos h0]
      simp
    · simp only [procReads, if_neg h0]
      rcases hcl (r ++ buf.drop r.length) with hk | hk <;> rw [hk]
      · exact ⟨rfl, rfl⟩
      · exact ⟨rfl, rfl⟩

theorem short_read_dropped_witness :
    (classifyFrame ([0, 0, 0, 11] ++ (List.replicate 256 0).drop ([0, 0, 0, 11] : List ℕ).length)
        ([0, 0, 0, 11] : List ℕ).length ≠ FrameKind.volumeUpdate ∧
     classifyFrame ([0, 0, 0, 11] ++ (List.replicate 256 0).drop ([0, 0, 0, 11] : List ℕ).length)
        ([0, 0, 0, 11] : List ℕ).length ≠ FrameKind.volumeAck ∧
     classifyFrame ([0, 0, 0, 11] ++ (List.replicate 256 0).drop ([0, 0, 0, 11] : List ℕ).length)
        ([0, 0, 0, 11] : List ℕ).length ≠ FrameKind.dimAck ∧
     classifyFrame ([0, 0, 0, 11] ++ (List.replicate 256 0).drop ([0, 0, 0, 11] : List ℕ).length)
        ([0, 0, 0, 11] : List ℕ).length ≠ FrameKind.sourceAck) ∧
    (procReads [[0, 0, 0, 11]] (List.replicate 256 0) ⟨0, false, "aes1"⟩).1 =
        ⟨0, false, "aes1"⟩ ∧
      (procReads [[0, 0, 0, 11]] (List.replicate 256 0) ⟨0, false, "aes1"⟩).2.2 = [] :=
  short_read_dropped [0, 0, 0, 11] (List.replicate 256 0) ⟨0, false, "aes1"⟩ (by norm_num)

/-- Claim C7 counterexample: with a heartbeat read followed by a dim-ACK-on
read pending in the same tick, `processIncomingPackets` returns at the
heartbeat, so the dim acknowledgement is neither consumed nor applied in that
tick — the claim that all available inbound bytes are drained and applied
within the same tick fails. -/
theorem drain_all_counterexample :
    (procReads [[0, 0, 0, 5, 4], [0, 0, 0, 11, 4, 5, 19, 1, 2, 0, 1]]
        (List.replicate 256 0) ⟨0, false, "aes1"⟩).2.2 =
      [[0, 0, 0, 11, 4, 5, 19, 1, 2, 0, 1]] ∧
    (procReads [[0, 0, 0, 5, 4], [0, 0, 0, 11, 4, 5, 19, 1, 2, 0, 1]]
        (List.replicate 256 0) ⟨0, false, "aes1"⟩).1.isDimmed = false := by
  constructor
  · decide
  · decide

/-- Claim C7 (amended): a Ready-state tick drains and applies the pending
reads in order — each read classified as an Ack/Update updates exactly its
device-state field via `applyFrame` — but only until a heartbeat-classified
read: such a read is consumed with no state change and stops the drain for
the tick, leaving the later reads pending for the next tick (as long as no
read is empty or heartbeat-classified, everything pending is drained and
folded into the state in one tick). -/
theorem ready_tick_drain (reads : List (List ℕ)) (buf : List ℕ) (dev : DeviceState)
    (h : ∀ r ∈ reads, 5 ≤ r.length ∧ r.take 5 ≠ heartbeatPacket) :
    ((procReads reads buf dev).1 =
        reads.foldl (fun d r => applyFrame (classifyFrame r r.length) r r.length d) dev ∧
      (procReads reads buf dev).2.2 = []) ∧
    ∀ r rest2 buf2 dev2, r.take 5 = heartbeatPacket →
      procReads (r :: rest2) buf2 dev2 = (dev2, r ++ buf2.drop r.length, rest2) :=
  ⟨procReads_foldl reads buf dev h,
   fun r rest2 buf2 dev2 hhb => procReads_heartbeat_stop r rest2 buf2 dev2 hhb⟩

theorem ready_tick_drain_witness :
    ((procReads [[0, 0, 0, 11, 4, 3, 18, 1, 2, 0, 172]] (List.replicate 256 0)
          ⟨0, false, "aes1"⟩).1 =
        ([[0, 0, 0, 11, 4, 3, 18, 1, 2, 0, 172]] : List (List ℕ)).foldl
          (fun d r => applyFrame (classifyFrame r r.length) r r.length d)
          ⟨0, false, "aes1"⟩ ∧
      (procReads [[0, 0, 0, 11, 4, 3, 18, 1, 2, 0, 172]] (List.replicate 256 0)
          ⟨0, false, "aes1"⟩).2.2 = []) ∧
    ∀ r rest2 buf2 dev2, r.take 5 = heartbeatPacket →
      procReads (r :: rest2) buf2 dev2 = (dev2, r ++ buf2.drop r.length, rest2) :=
  ready_tick_drain [[0, 0, 0, 11, 4, 3, 18, 1, 2, 0, 172]] (List.replicate 256 0)
    ⟨0, false, "aes1"⟩ (by decide)

theorem usub32_eq (a b : ℕ) (hle : b ≤ a) (ha : a < 2 ^ 32) : usub32 a b = a - b := by
  unfold usub32
  omega

/-- Claim C5: on a Ready-state tick with a monotone un-wrapped clock, if the
elapsed time since the last heartbeat exceeds the 10000 ms interval the tick
writes exactly one Heartbeat frame (the bytes `00 00 00 05 04`) and resets the
heartbeat timer to the tick time; a tick within the interval writes nothing
and leaves the timer alone. -/
theorem heartbeat_on_tick (st : EngineState) (now : ℕ) (reads : List (List ℕ))
    (h1 : st.deviceFound = true) (h2 : st.isConnected = true)
    (h3 : st.lastHeartbeatTime ≤ now) (h4 : now < 2 ^ 32) :
    (10000 < now - st.lastHeartbeatTime →
      (loopTick now true reads none st).writes = heartbeatPacket ∧
        (loopTick now true reads none st).state.lastHeartbeatTime = now) ∧
    (now - st.lastHeartbeatTime ≤ 10000 →
      (loopTick now true reads none st).writes = [] ∧
        (loopTick now true reads none st).state.lastHeartbeatTime = st.lastHeartbeatTime) := by
  have hu : usub32 now st.lastHeartbeatTime = now - st.lastHeartbeatTime :=
    usub32_eq _ _ h3 h4
  constructor
  · intro hgt
    constructor
    · simp [loopTick, h1, h2, hu, hgt, sendHeartbeat]
    · simp [loopTick, h1, h2, hu, hgt]
  · intro hle
    have hngt : ¬ (10000 < now - st.lastHeartbeatTime) := by omega
    constructor
    · simp [loopTick, h1, h2, hu, hngt, sendHeartbeat]
    · simp [loopTick, h1, h2, hu, hngt]

theorem heartbeat_on_tick_witness :
    (loopTick 20000 true [] none ⟨true, true, 0, ⟨0, false, "aes1"⟩, []⟩).writes =
        heartbeatPacket ∧
      (loopTick 20000 true [] none
          ⟨true, true, 0, ⟨0, false, "aes1"⟩, []⟩).state.lastHeartbeatTime = 20000 :=
  (heartbeat_on_tick ⟨true, true, 0, ⟨0, false, "aes1"⟩, []⟩ 20000 [] rfl rfl
    (by norm_num) (by norm_num)).1 (by norm_num)

/-- Claim C9 counterexample: with a discovery result available
(`deviceFound = true`) but the session disconnected, a tick performs no
transport connect attempt, writes nothing, and leaves the state untouched —
refuting the claim that a tick after falling back to Disconnected re-attempts
the connection. -/
theorem reconnect_counterexample :
    (loopTick 50000 false [] none
          ⟨true, false, 12345, ⟨-10, true, "optical"⟩, []⟩).connectAttempt = false ∧
      (loopTick 50000 false [] none
          ⟨true, false, 12345, ⟨-10, true, "optical"⟩, []⟩).writes = [] ∧
      (loopTick 50000 false [] none ⟨true, false, 12345, ⟨-10, true, "optical"⟩, []⟩).state =
        ⟨true, false, 12345, ⟨-10, true, "optical"⟩, []⟩ :=
  ⟨rfl, rfl, rfl⟩

/-- Claim C9 (amended): once the session is Disconnected every subsequent
tick is a no-op — no transport connect attempt, no bytes written, no state
change, reads left pending — regardless of the discovery result; the sketch's
`loop` never reconnects (`connectToDevice` runs only in `setup`), so recovery
requires a manual reset rather than the tick cycle. -/
theorem disconnected_tick_noop (now : ℕ) (cc : Bool) (reads : List (List ℕ))
    (serial : Option (List Char)) (st : EngineState) (h : st.isConnected = false) :
    loopTick now cc reads serial st = ⟨st, [], false, reads⟩ := by
  cases hd : st.deviceFound <;> simp [loopTick, hd, h]

theorem disconnected_tick_noop_witness :
    loopTick 0 true [[1, 2, 3]] none ⟨true, false, 0, ⟨0, false, "aes1"⟩, []⟩ =
      ⟨⟨true, false, 0, ⟨0, false, "aes1"⟩, []⟩, [], false, [[1, 2, 3]]⟩ :=
  disconnected_tick_noop 0 true [[1, 2, 3]] none ⟨true, false, 0, ⟨0, false, "aes1"⟩, []⟩ rfl

theorem atof_unparsed (l : List Char) (h : parsesAsNumber l = false) : atofQ l = 0 := by
  unfold parsesAsNumber at h
  unfold atofQ
  rcases hnb : numBody (stripSign (l.dropWhile isSpaceB)) with ⟨ds, fs⟩
  rw [hnb] at h
  simp [List.isEmpty_iff] at h
  obtain ⟨hds, hfs⟩ := h
  subst hds
  subst hfs
  simp only [hnb]
  simp [digitsToNat]

/-- Claim C10: an operator line `volume <arg>` whose argument does not parse
as a number is not rejected — the argument parses to 0.0, which passes the
range check, so the volume command is transmitted with payload byte 192
(0.0 dB, full volume) and no error is reported. -/
theorem volume_garbage_arg (arg : List Char) (h : parsesAsNumber arg = false) :
    handleUserCommand ('v' :: 'o' :: 'l' :: 'u' :: 'm' :: 'e' :: ' ' :: arg) =
      ⟨preCmd ++ volumeCmdHdr ++ [192], false⟩ := by
  have hd : handleUserCommand ('v' :: 'o' :: 'l' :: 'u' :: 'm' :: 'e' :: ' ' :: arg) =
      setVolume (atofQ arg) := rfl
  rw [hd, atof_unparsed arg h]
  unfold setVolume
  rw [if_neg (by norm_num : ¬((0 : ℚ) < 0 ∨ (0 : ℚ) < -95))]
  rw [show (0 : ℚ) * 2 = ((0 : ℤ) : ℚ) by norm_num, truncQ_intCast]
  rfl

theorem volume_garbage_arg_witness :
    handleUserCommand ('v' :: 'o' :: 'l' :: 'u' :: 'm' :: 'e' :: ' ' :: ['a', 'b', 'c']) =
      ⟨preCmd ++ volumeCmdHdr ++ [192], false⟩ :=
  volume_garbage_arg ['a', 'b', 'c'] (by decide)
